import Mathlib

/-!
# Verification of the media-monitoring-tool core

Shallow embedding of the core of the repository:

* `intelligent_search_tab.py` — text preprocessing, keyword scoring,
  semantic (TF-IDF/cosine) scoring, combined relevance ranking and
  top-N / percentage selection;
* `google_news_scraper.py` — per-page stub filtering, keyword tagging,
  merging and URL deduplication of the concurrent harvester;
* `aggregation_tab.py` — date canonicalisation
  (`standardize_date_format`) and per-platform schema normalisation.

Numbers that Python holds as `float` are modelled in exact arithmetic
(`ℚ`, and `ℝ` where a square root occurs); machine rounding of IEEE
doubles is outside the model.  External libraries are embedded at the
granularity of the library calls the source makes (pandas
`sort_values`/`head`, sklearn `cosine_similarity`, `re.search`,
`datetime.strptime`), each documented at its definition.
-/

/-! ## Text preprocessing (`intelligent_search_tab.preprocess_text`) -/

/-- Python `\s` whitespace class, ASCII range (space, tab, newline,
carriage return, vertical tab, form feed). -/
def pyWhitespace (c : Char) : Bool :=
  c == ' ' || c == '\t' || c == '\n' || c == '\r' || c == '\x0b' || c == '\x0c'

/-- Step of `re.sub(r'[^a-zA-Z0-9\s]', ' ', text)`: characters other
than ASCII alphanumerics and whitespace become a space. -/
def subNonAlnum (c : Char) : Char :=
  if c.isAlphanum || pyWhitespace c then c else ' '

/-- Collapse every maximal run of whitespace into one space —
`re.sub(r'\s+', ' ', text)`.  The flag records whether the scan is
inside a whitespace run (structural recursion, so the kernel can
evaluate it). -/
def collapseWSAux : Bool → List Char → List Char
  | _, [] => []
  | inRun, c :: rest =>
    if pyWhitespace c then
      if inRun then collapseWSAux true rest
      else ' ' :: collapseWSAux true rest
    else c :: collapseWSAux false rest

/-- Collapse every maximal run of whitespace into one space. -/
def collapseWS (cs : List Char) : List Char :=
  collapseWSAux false cs

/-- Python `str.strip()` restricted to the `\s` class. -/
def pyStripList (cs : List Char) : List Char :=
  ((cs.dropWhile pyWhitespace).reverse.dropWhile pyWhitespace).reverse

/-- Python `str.strip()` on a `String`. -/
def pyStrip (s : String) : String :=
  String.mk (pyStripList s.toList)

/-- `str.lower()` (ASCII letters; the sources only manipulate ASCII). -/
def pyLower (s : String) : String :=
  String.mk (s.toList.map Char.toLower)

/-- `preprocess_text` from `intelligent_search_tab.py`: lowercase,
replace non-alphanumerics by spaces, collapse whitespace, strip.
`pd.isna`/falsy inputs are the empty string at this boundary. -/
def preprocess_text (s : String) : String :=
  String.mk (pyStripList (collapseWS ((pyLower s).toList.map subNonAlnum)))

/-- Worker for Python `str.split()`: accumulates the current token
(reversed) and breaks on whitespace, dropping empty pieces. -/
def splitWSAux : List Char → List Char → List String
  | [], acc => if acc.isEmpty then [] else [String.mk acc.reverse]
  | c :: rest, acc =>
    if pyWhitespace c then
      if acc.isEmpty then splitWSAux rest []
      else String.mk acc.reverse :: splitWSAux rest []
    else splitWSAux rest (c :: acc)

/-- Python `str.split()` with no separator: split on whitespace runs,
dropping empty pieces. -/
def pySplit (s : String) : List String :=
  splitWSAux s.toList []

/-- Token set (`set(text.split())`). -/
def tokenSet (s : String) : Finset String :=
  (pySplit s).toFinset

/-- `needle.isPrefixOf hay` on character lists, by plain equality. -/
def listStarts : List Char → List Char → Bool
  | _, [] => true
  | [], _ :: _ => false
  | h :: hs, n :: ns => h == n && listStarts hs ns

/-- Python substring test `needle in hay` on character lists. -/
def listContainsSub : List Char → List Char → Bool
  | hay, needle =>
    listStarts hay needle ||
      match hay with
      | [] => false
      | _ :: t => listContainsSub t needle

/-- Python substring test `needle in hay` on strings. -/
def strContainsSub (hay needle : String) : Bool :=
  listContainsSub hay.toList needle.toList

/-! ## Keyword score (`intelligent_search_tab.keyword_search_score`) -/

/-- `keyword_search_score(query, title, content, source)` translated
clause by clause from the source: token-overlap fractions weighted
50/40/10, an exact-phrase bonus of 20 (title) else 10 (content), capped
at 100 by `min(total_score, 100)`. -/
def keyword_search_score (query title content source : String) : ℚ :=
  if query = "" then 0
  else
    let qp := preprocess_text query
    let tp := preprocess_text title
    let cp := preprocess_text content
    let sp := preprocess_text source
    let qw := tokenSet qp
    let tw := tokenSet tp
    let cw := tokenSet cp
    let sw := tokenSet sp
    if qw.card = 0 then 0
    else
      let titleScore : ℚ := ((qw ∩ tw).card : ℚ) / (qw.card : ℚ) * 50
      let contentScore : ℚ := ((qw ∩ cw).card : ℚ) / (qw.card : ℚ) * 40
      let sourceScore : ℚ := ((qw ∩ sw).card : ℚ) / (qw.card : ℚ) * 10
      let base := titleScore + contentScore + sourceScore
      let total :=
        if strContainsSub tp qp then base + 20
        else if strContainsSub cp qp then base + 10
        else base
      min total 100

/-- Modelled from the spec's wording of the keyword score (claim C3):
weighted sum of intersection fractions, mutually exclusive phrase bonus
with title precedence, clamped to [0,100], 0 on an empty token set.
Kept separate from `keyword_search_score` for the refinement proof. -/
def keywordScoreSpec (query title content source : String) : ℚ :=
  let qp := preprocess_text query
  let tp := preprocess_text title
  let cp := preprocess_text content
  let sp := preprocess_text source
  let qw := tokenSet qp
  if qw.card = 0 then 0
  else
    let titleFrac : ℚ := ((qw ∩ tokenSet tp).card : ℚ) / (qw.card : ℚ)
    let contentFrac : ℚ := ((qw ∩ tokenSet cp).card : ℚ) / (qw.card : ℚ)
    let sourceFrac : ℚ := ((qw ∩ tokenSet sp).card : ℚ) / (qw.card : ℚ)
    let bonus : ℚ :=
      if strContainsSub tp qp then 20
      else if strContainsSub cp qp then 10
      else 0
    max 0 (min (titleFrac * 50 + contentFrac * 40 + sourceFrac * 10 + bonus) 100)

/-! ## Semantic score (`intelligent_search_tab.semantic_search_score`)

The sklearn `TfidfVectorizer` output is abstracted as the per-document
tf-idf coordinate vectors (every tf-idf entry produced by sklearn is
nonnegative: term counts are nonnegative and the smoothed idf
`log((1+n)/(1+df)) + 1` is at least 1).  `cosine_similarity` and the
`× 100` scaling are modelled exactly, in exact real arithmetic;
sklearn's row normalisation maps a zero row to zero, so a zero vector
has similarity 0. -/

/-- Sum of squares of a rational vector (`‖v‖²`). -/
def sumSq (v : List ℚ) : ℚ :=
  (v.map (fun x => x * x)).sum

/-- Dot product of two rational vectors (`zip` semantics: the shorter
length rules, as in a fixed shared vocabulary both have equal length). -/
def dotQ : List ℚ → List ℚ → ℚ
  | [], _ => 0
  | _, [] => 0
  | x :: xs, y :: ys => x * y + dotQ xs ys

/-- sklearn `cosine_similarity` of two coordinate vectors: 0 if either
has norm zero (sklearn's `normalize` keeps zero rows zero), otherwise
`⟨u,v⟩ / (‖u‖‖v‖)`. -/
noncomputable def cosineSim (u v : List ℚ) : ℝ :=
  if sumSq u = 0 ∨ sumSq v = 0 then 0
  else ((dotQ u v : ℚ) : ℝ) / (Real.sqrt ((sumSq u : ℚ) : ℝ) * Real.sqrt ((sumSq v : ℚ) : ℝ))

/-- Per-article semantic score: `similarities * 100`
(`semantic_search_score`, success path; the failure path returns 0 for
every article, which the range theorem also covers). -/
noncomputable def semanticScoreOfVecs (q a : List ℚ) : ℝ :=
  100 * cosineSim q a

/-! ## Combined relevance pipeline
(`intelligent_search_tab.calculate_combined_relevance_score`) -/

/-- Python's banker's rounding (`round(x)` on the scaled value):
round half to even. -/
def bankers (t : ℚ) : ℤ :=
  let fl := ⌊t⌋
  let frac := t - (fl : ℚ)
  if frac < 1 / 2 then fl
  else if 1 / 2 < frac then fl + 1
  else if 2 ∣ fl then fl else fl + 1

/-- Python `round(x, 2)` in exact arithmetic. -/
def pyRound2 (q : ℚ) : ℚ :=
  ((bankers (q * 100) : ℤ) : ℚ) / 100

/-- An input article row: the fields `keyword_search_score` reads
(`Title`, `snippet`, `Source`). -/
structure InArticle where
  title : String
  snippet : String
  source : String
deriving DecidableEq

/-- A row of the scored frame: the article plus the three appended
score columns `Keyword_Score`, `Semantic_Score`, `Relevance_Score`. -/
structure ScoredRow where
  art : InArticle
  keywordScore : ℚ
  semanticScore : ℚ
  relevanceScore : ℚ
deriving DecidableEq

/-- Score computation of `calculate_combined_relevance_score` before
the sort: each row is paired with the semantic score the vectoriser
returned for it (the sklearn call is the floating-point boundary of the
model, so the semantic scores enter as data).  `Keyword_Score` is
stored unrounded, `Semantic_Score` rounded to 2 decimals, and
`Relevance_Score = round(0.6*keyword + 0.4*semantic, 2)` uses the
unrounded semantic score, exactly as in the source. -/
def scoreRows (query : String) (rows : List (InArticle × ℚ)) : List ScoredRow :=
  rows.map (fun p =>
    { art := p.1
      keywordScore := keyword_search_score query p.1.title p.1.snippet p.1.source
      semanticScore := pyRound2 p.2
      relevanceScore :=
        pyRound2 (keyword_search_score query p.1.title p.1.snippet p.1.source * (6 / 10)
          + p.2 * (4 / 10)) })

/-- The comparison `pandas.sort_values` sorts by: key ascending. -/
def keyLe {α : Type} (key : α → ℚ) (a b : α) : Prop :=
  key a ≤ key b

instance {α : Type} (key : α → ℚ) : DecidableRel (keyLe key) :=
  fun a b => inferInstanceAs (Decidable (key a ≤ key b))

instance {α : Type} (key : α → ℚ) : IsTotal α (keyLe key) :=
  ⟨fun a b => le_total (key a) (key b)⟩

instance {α : Type} (key : α → ℚ) : IsTrans α (keyLe key) :=
  ⟨fun _ _ _ h h' => le_trans h h'⟩

/-- `DataFrame.sort_values(by=key, ascending=False)` with the source's
default `kind='quicksort'` (numpy introsort).  pandas (`nargsort`)
reverses the rows, argsorts, and reverses the resulting indexer.  The
sort's *contract* promises only some permutation ordered by the key —
numpy guarantees stability only for `kind='stable'`/`'mergesort'`, and
introsort reorders equal keys beyond its 16-element insertion-sort
cutoff — so the program-level guarantee is `IsSortValuesDescResult`
below.  This executable definition picks one contract-satisfying
representative (the stable one, which the real sort produces in the
small-array regime) so that the pipeline stays a computable function;
no theorem may read tie order off this representative as a property of
the program — the gap is recorded at claim C1.
`reset_index(drop=True)` does not change the order. -/
def sortValuesDesc {α : Type} (key : α → ℚ) (l : List α) : List α :=
  (List.insertionSort (keyLe key) l.reverse).reverse

/-- What `sort_values(by=key, ascending=False)` guarantees about its
output under the default `kind='quicksort'`: a permutation of the rows
that is non-increasing in the key — and nothing about the relative
order of equal keys. -/
def IsSortValuesDescResult {α : Type} (key : α → ℚ) (l out : List α) : Prop :=
  out.Perm l ∧ out.Pairwise (fun a b => key b ≤ key a)

/-- `calculate_combined_relevance_score(query, df)`: score every row,
then sort by `Relevance_Score` descending. -/
def calculate_combined_relevance_score (query : String) (rows : List (InArticle × ℚ)) :
    List ScoredRow :=
  sortValuesDesc (fun r => r.relevanceScore) (scoreRows query rows)

/-! ## Selection (`intelligent_search_tab.filter_top_results`) -/

/-- Python `int(x)`: truncation toward zero. -/
def pyTrunc (q : ℚ) : ℤ :=
  if q < 0 then ⌈q⌉ else ⌊q⌋

/-- `DataFrame.head(n)`: the first `n` rows for `n ≥ 0`, and all but
the last `|n|` rows for negative `n`. -/
def pandasHead {α : Type} (l : List α) (n : ℤ) : List α :=
  if 0 ≤ n then l.take n.toNat else l.take (l.length - (-n).toNat)

/-- `filter_top_results(df, selection_method, selection_value)`:
`"Number"` takes `min(int(value), len(df))` rows from the head, any
other method is the percentage branch taking
`max(1, int(len(df) * value/100))` rows. -/
def filter_top_results (df : List ScoredRow) (selection_method : String)
    (selection_value : ℚ) : List ScoredRow :=
  if df.isEmpty then df
  else if selection_method = "Number" then
    pandasHead df (min (pyTrunc selection_value) (df.length : ℤ))
  else
    pandasHead df (max 1 (pyTrunc ((df.length : ℚ) * (selection_value / 100))))

/-! ## Harvester (`google_news_scraper.py`)

The network fetching, HTML parsing and the thread pools are the
external boundary: a page's parse yields a list of candidate elements,
each with the link, the truncated title, the (possibly empty) result of
the secondary full-title fetch, snippet, date and source text.  The
merge order of the per-keyword, per-page result lists is completion
order, so the merged list enters the model as data.  Writing the Excel
file is abstracted to returning the deduplicated rows themselves. -/

/-- One candidate article element of `_scrape_page`, after the
selector lookups and `_fetch_full_title` (empty string = lookup or
fetch yielded nothing, every `get_text().strip()` already applied). -/
structure PageCandidate where
  link : String
  truncatedTitle : String
  fullTitle : String
  snippet : String
  date : String
  source : String
deriving DecidableEq

/-- A harvested stub as appended by `_scrape_page` and tagged by
`_process_keyword_parallel` (`search_keyword` starts out empty and is
overwritten by the tagging pass). -/
structure Stub where
  link : String
  title : String
  snippet : String
  date : String
  source : String
  search_keyword : String
deriving DecidableEq

/-- `final_title = full_title if full_title else truncated_title`. -/
def resolvedTitle (c : PageCandidate) : String :=
  if c.fullTitle = "" then c.truncatedTitle else c.fullTitle

/-- The per-element loop of `_scrape_page`: a stub is appended only
when `final_title and link` is truthy, i.e. both nonempty. -/
def scrapePageStubs (cands : List PageCandidate) : List Stub :=
  cands.filterMap (fun c =>
    if resolvedTitle c ≠ "" ∧ c.link ≠ "" then
      some { link := c.link, title := resolvedTitle c, snippet := c.snippet,
             date := c.date, source := c.source, search_keyword := "" }
    else none)

/-- `_process_keyword_parallel`: tag every stub of a keyword's pages
with that keyword. -/
def tagKeyword (kw : String) (stubs : List Stub) : List Stub :=
  stubs.map (fun s => { s with search_keyword := kw })

/-- Merge of all per-keyword results in completion order: the pages
argument carries, per completed keyword task, the keyword and its
parsed page candidates (already concatenated across that keyword's
pages). -/
def mergePages (pages : List (String × List PageCandidate)) : List Stub :=
  (pages.map (fun p => tagKeyword p.1 (scrapePageStubs p.2))).flatten

/-- The deduplication loop of `get_news_data`: keep a result only if
`result.get('link')` is truthy (nonempty) and not seen before; a kept
link is added to the seen set. -/
def dedupAux (seen : List String) : List Stub → List Stub
  | [] => []
  | r :: rest =>
    if r.link ≠ "" ∧ r.link ∉ seen then r :: dedupAux (r.link :: seen) rest
    else dedupAux seen rest

/-- Global URL deduplication, first-seen occurrence wins. -/
def dedupByUrl (l : List Stub) : List Stub :=
  dedupAux [] l

/-- `[kw.strip() for kw in keyword.split(',') if kw.strip()]`:
split on commas (keeping empty pieces, as Python `split(',')` does),
strip each piece, drop the falsy (empty) ones. -/
def splitCommaAux : List Char → List Char → List String
  | [], acc => [String.mk acc.reverse]
  | c :: rest, acc =>
    if c == ',' then String.mk acc.reverse :: splitCommaAux rest []
    else splitCommaAux rest (c :: acc)

/-- `keyword.split(',')` with per-piece `strip()` and falsy filter. -/
def splitKeywords (s : String) : List String :=
  ((splitCommaAux s.toList []).map pyStrip).filter (fun k => k ≠ "")

/-- `get_news_data(keyword, ...)` control flow after the fetch layer:
raise `ValueError` when no keyword survives trimming; deduplicate the
merged results; return `None` (modelled `Option.none`) when nothing
survives, else the deduplicated rows (the Excel export of those rows is
the abstracted return value). -/
def get_news_data (keywordArg : String) (allResults : List Stub) :
    Except String (Option (List Stub)) :=
  if splitKeywords keywordArg = [] then Except.error "No valid keywords provided"
  else
    let unique := dedupByUrl allResults
    if unique.isEmpty then Except.ok none
    else Except.ok (some unique)

/-! ## Date normalisation (`aggregation_tab.standardize_date_format`)

The ingredients, in the order the source tries them: the relative
`"<N> <unit> ago"` regex, the ten explicit `strptime` formats, pandas'
flexible parser (an external black box, a parameter of the model), and
the fall-through returning the (stripped) string.  `datetime.now()` is
modelled as an injected instant, in whole minutes since the epoch (the
sub-minute part of `now` never changes the printed day, because every
subtracted `Timedelta` is a whole number of minutes).  The proleptic
Gregorian calendar is unbounded in the model: `datetime`/`Timedelta`
range overflow is out of scope. -/

/-- Numeric value of a digit character. -/
def dval (c : Char) : ℕ :=
  c.toNat - 48

/-- `int()` of a nonempty digit run. -/
def digitsToNat (ds : List Char) : ℕ :=
  ds.foldl (fun n c => 10 * n + dval c) 0

/-- The time units of the relative-date regex
`(\d+)\s*(minute|hour|day|week|month|year)s?\s*ago`. -/
inductive TimeUnit where
  | minute | hour | day | week | month | year
deriving DecidableEq

/-- Length of one unit in minutes; the source counts a month as 30 days
and a year as 365 days. -/
def unitMinutes : TimeUnit → ℤ
  | .minute => 1
  | .hour => 60
  | .day => 1440
  | .week => 10080
  | .month => 43200
  | .year => 525600

/-- The unit alternation of the regex, tried left to right on the
lowercased text. -/
def parseUnitAt (cs : List Char) : Option (TimeUnit × List Char) :=
  if listStarts cs "minute".toList then some (.minute, cs.drop 6)
  else if listStarts cs "hour".toList then some (.hour, cs.drop 4)
  else if listStarts cs "day".toList then some (.day, cs.drop 3)
  else if listStarts cs "week".toList then some (.week, cs.drop 4)
  else if listStarts cs "month".toList then some (.month, cs.drop 5)
  else if listStarts cs "year".toList then some (.year, cs.drop 4)
  else none

/-- Attempt the relative-date pattern at the head of the text:
a digit run, optional whitespace, a unit, an optional `s`, optional
whitespace, then the literal `ago`.  (The greedy digit run never needs
backtracking: a shorter run would leave a digit where the unit's letter
must stand, and an unconsumed `s` would leave `s` where `ago`'s `a`
must stand.) -/
def matchRelTail (cs : List Char) : Option (ℕ × TimeUnit) :=
  let ds := cs.takeWhile Char.isDigit
  if ds.isEmpty then none
  else
    let rest1 := (cs.dropWhile Char.isDigit).dropWhile pyWhitespace
    match parseUnitAt rest1 with
    | none => none
    | some (u, rest2) =>
      let rest3 := if listStarts rest2 "s".toList then rest2.drop 1 else rest2
      let rest4 := rest3.dropWhile pyWhitespace
      if listStarts rest4 "ago".toList then some (digitsToNat ds, u) else none

/-- `re.search` of the relative-date pattern: leftmost match (a match
must start with a digit, so trying every start position in order is the
regex scan). -/
def findRel : List Char → Option (ℕ × TimeUnit)
  | [] => none
  | c :: rest =>
    match matchRelTail (c :: rest) with
    | some r => some r
    | none => findRel rest

/-- Day number (days since 1970-01-01) of an instant in minutes:
floor division, as `datetime`'s date part. -/
def dayOfMinutes (t : ℤ) : ℤ :=
  t / 1440

/-- Civil date from a day number (proleptic Gregorian; the standard
era/year-of-era/day-of-year decomposition).  Returns (year, month,
day). -/
def civilFromDays (z0 : ℤ) : ℤ × ℤ × ℤ :=
  let z := z0 + 719468
  let era := z / 146097
  let doe := z - era * 146097
  let yoe := (doe - doe / 1460 + doe / 36524 - doe / 146096) / 365
  let y := yoe + era * 400
  let doy := doe - (365 * yoe + yoe / 4 - yoe / 100)
  let mp := (5 * doy + 2) / 153
  let d := doy - (153 * mp + 2) / 5 + 1
  let m := mp + (if mp < 10 then 3 else -9)
  (y + (if m ≤ 2 then 1 else 0), m, d)

/-- Day number from a civil date (inverse of `civilFromDays`), used to
write concrete instants. -/
def daysFromCivil (y m d : ℤ) : ℤ :=
  let y' := y - (if m ≤ 2 then 1 else 0)
  let era := y' / 400
  let yoe := y' - era * 400
  let mp := (m + 9) % 12
  let doy := (153 * mp + 2) / 5 + d - 1
  let doe := yoe * 365 + yoe / 4 - yoe / 100 + doy
  era * 146097 + doe - 719468

/-- Zero-padded decimal rendering (`strftime` field widths `%m`,
`%d`). -/
def padNum (k : ℕ) (n : ℤ) : String :=
  let s := toString n.toNat
  String.mk (List.replicate (k - s.length) '0') ++ s

/-- `strftime("%Y/%m/%d")`: glibc's `%Y` prints the year without
padding (year 5 renders as `"5"`), `%m`/`%d` are two-digit. -/
def formatYMD (y m d : ℤ) : String :=
  toString y.toNat ++ "/" ++ padNum 2 m ++ "/" ++ padNum 2 d

/-- Format an instant in minutes as `%Y/%m/%d`. -/
def formatMinutes (t : ℤ) : String :=
  let c := civilFromDays (dayOfMinutes t)
  formatYMD c.1 c.2.1 c.2.2

/-- `pd.Timedelta`'s upper bound: `Timedelta.max` is 2^63 − 1
nanoseconds (106751 days 23:47:16.854775807); constructing a larger
delta raises `OutOfBoundsTimedelta`. -/
def pdTimedeltaMaxNs : ℤ := 9223372036854775807

/-- Nanoseconds of the `pd.Timedelta` the relative branch constructs
for `N` of a unit (`minutes=N`, `hours=N`, `days=N`, `weeks=N`,
`days=N*30`, `days=N*365` all equal `N * unitMinutes * 60e9` ns). -/
def relDeltaNs (n : ℕ) (u : TimeUnit) : ℤ :=
  (n : ℤ) * unitMinutes u * 60000000000

/-- `datetime.min` (0001-01-01 00:00) in minutes since the epoch;
a subtraction result before it raises `OverflowError`. -/
def datetimeMinMinutes : ℤ := daysFromCivil 1 1 1 * 1440

/-- Does the relative-date computation complete without raising: the
`pd.Timedelta` fits its 2^63 − 1 ns range and `now - delta` is not
before `datetime.min`.  (Sub-minute parts of `now` cannot tip either
bound, both being whole-minute multiples.)  When this fails, the raised
`OutOfBoundsTimedelta`/`OverflowError` is caught by the function's
outer `except Exception`, which returns the sentinel `"N/A"`. -/
def relComputeOk (now : ℤ) (n : ℕ) (u : TimeUnit) : Prop :=
  relDeltaNs n u ≤ pdTimedeltaMaxNs ∧
    datetimeMinMinutes ≤ now - (n : ℤ) * unitMinutes u

instance (now : ℤ) (n : ℕ) (u : TimeUnit) : Decidable (relComputeOk now n u) :=
  inferInstanceAs (Decidable (_ ∧ _))

/-! ### The ten explicit `strptime` formats

`datetime.strptime` compiles a format into a regex (case-insensitive,
whitespace in the format matching a whitespace run) and then validates
ranges while building the `datetime`; a day beyond the month's length
raises and the source falls through to the next format.  Numeric
directives accept one or two digits with the two-digit reading
preferred exactly when it lies in the directive's range. -/

/-- Gregorian leap year. -/
def isLeap (y : ℤ) : Bool :=
  y % 4 = 0 && (y % 100 ≠ 0 || y % 400 = 0)

/-- Days in a month. -/
def daysInMonth (y m : ℤ) : ℤ :=
  if m = 2 then (if isLeap y then 29 else 28)
  else if m = 4 ∨ m = 6 ∨ m = 9 ∨ m = 11 then 30
  else 31

/-- One-or-two-digit numeric directive: the two-digit reading wins when
its value is in `[lo2, hi2]`, else a single digit with value at least
`lo1` (mirrors the regex alternations `strptime` compiles for
`%m %d %H %I %M %S`). -/
def parseNum2or1 (lo2 hi2 lo1 : ℕ) : List Char → Option (ℕ × List Char)
  | c1 :: c2 :: rest =>
    if c1.isDigit then
      if c2.isDigit then
        let v := dval c1 * 10 + dval c2
        if lo2 ≤ v ∧ v ≤ hi2 then some (v, rest)
        else if lo1 ≤ dval c1 then some (dval c1, c2 :: rest)
        else none
      else if lo1 ≤ dval c1 then some (dval c1, c2 :: rest)
      else none
    else none
  | [c1] =>
    if c1.isDigit ∧ lo1 ≤ dval c1 then some (dval c1, []) else none
  | [] => none

/-- Exactly `n` digits (`%y`, `%Y`). -/
def parseDigitsExact (n : ℕ) (cs : List Char) : Option (ℕ × List Char) :=
  let ds := cs.take n
  if ds.length = n ∧ ds.all Char.isDigit then some (digitsToNat ds, cs.drop n)
  else none

/-- Full month names, as `%B` matches them (case-insensitively). -/
def monthNamesFull : List (String × ℕ) :=
  [("january", 1), ("february", 2), ("march", 3), ("april", 4), ("may", 5),
   ("june", 6), ("july", 7), ("august", 8), ("september", 9), ("october", 10),
   ("november", 11), ("december", 12)]

/-- Abbreviated month names (`%b`). -/
def monthNamesAbbr : List (String × ℕ) :=
  [("jan", 1), ("feb", 2), ("mar", 3), ("apr", 4), ("may", 5), ("jun", 6),
   ("jul", 7), ("aug", 8), ("sep", 9), ("oct", 10), ("nov", 11), ("dec", 12)]

/-- Case-insensitive name-table match, consuming the name. -/
def matchNameCI (names : List (String × ℕ)) (cs : List Char) : Option (ℕ × List Char) :=
  names.findSome? (fun p =>
    if listStarts (cs.map Char.toLower) p.1.toList then some (p.2, cs.drop p.1.length)
    else none)

/-- One directive or literal of a `strptime` format string. -/
inductive DTok where
  | lit : Char → DTok
  | ws : DTok
  | monthNum : DTok
  | dayNum : DTok
  | year2 : DTok
  | year4 : DTok
  | hour24 : DTok
  | hour12 : DTok
  | minSec : DTok
  | amPm : DTok
  | monthFull : DTok
  | monthAbbr : DTok

/-- Partial date while matching; `strptime` defaults are 1900-01-01. -/
structure DateAcc where
  year : ℕ
  month : ℕ
  day : ℕ
deriving DecidableEq

/-- Consume one token.  Literals match case-insensitively (the compiled
regex carries `re.IGNORECASE`); `ws` is the `\s+` a format-string space
compiles to; `%y` maps 00–68 to 2000+ and 69–99 to 1900+. -/
def applyTok : DTok → DateAcc → List Char → Option (DateAcc × List Char)
  | .lit c, a, x :: rest => if x.toLower == c.toLower then some (a, rest) else none
  | .lit _, _, [] => none
  | .ws, a, x :: rest =>
    if pyWhitespace x then some (a, rest.dropWhile pyWhitespace) else none
  | .ws, _, [] => none
  | .monthNum, a, cs => (parseNum2or1 1 12 1 cs).map (fun p => ({ a with month := p.1 }, p.2))
  | .dayNum, a, cs => (parseNum2or1 1 31 1 cs).map (fun p => ({ a with day := p.1 }, p.2))
  | .year2, a, cs =>
    (parseDigitsExact 2 cs).map (fun p =>
      ({ a with year := if p.1 ≤ 68 then 2000 + p.1 else 1900 + p.1 }, p.2))
  | .year4, a, cs => (parseDigitsExact 4 cs).map (fun p => ({ a with year := p.1 }, p.2))
  | .hour24, a, cs => (parseNum2or1 0 23 0 cs).map (fun p => (a, p.2))
  | .hour12, a, cs => (parseNum2or1 1 12 1 cs).map (fun p => (a, p.2))
  | .minSec, a, cs => (parseNum2or1 0 59 0 cs).map (fun p => (a, p.2))
  | .amPm, a, x :: y :: rest =>
    if (x.toLower == 'a' || x.toLower == 'p') && y.toLower == 'm' then some (a, rest) else none
  | .amPm, _, _ => none
  | .monthFull, a, cs => (matchNameCI monthNamesFull cs).map (fun p => ({ a with month := p.1 }, p.2))
  | .monthAbbr, a, cs => (matchNameCI monthNamesAbbr cs).map (fun p => ({ a with month := p.1 }, p.2))

/-- Match a whole format; `strptime` demands full consumption. -/
def runToks : List DTok → DateAcc → List Char → Option DateAcc
  | [], a, [] => some a
  | [], _, _ :: _ => none
  | t :: ts, a, cs =>
    match applyTok t a cs with
    | some (a', rest) => runToks ts a' rest
    | none => none

/-- The ten formats of `formats_to_try`, in source order. -/
def formatsToTry : List (List DTok) :=
  [[.monthNum, .lit '/', .dayNum, .lit '/', .year2, .ws, .hour12, .lit ':', .minSec,
    .lit ':', .minSec, .ws, .amPm],
   [.year4, .lit '-', .monthNum, .lit '-', .dayNum, .lit 'T', .hour24, .lit ':', .minSec,
    .lit ':', .minSec],
   [.year4, .lit '-', .monthNum, .lit '-', .dayNum, .ws, .hour24, .lit ':', .minSec,
    .lit ':', .minSec],
   [.monthNum, .lit '/', .dayNum, .lit '/', .year4],
   [.year4, .lit '-', .monthNum, .lit '-', .dayNum],
   [.dayNum, .lit '/', .monthNum, .lit '/', .year4],
   [.monthFull, .ws, .dayNum, .lit ',', .ws, .year4],
   [.monthAbbr, .ws, .dayNum, .lit ',', .ws, .year4],
   [.dayNum, .lit '-', .monthNum, .lit '-', .year4],
   [.year4, .lit '/', .monthNum, .lit '/', .dayNum]]

/-- One `datetime.strptime(date_str, fmt)` attempt, including the
constructor's range validation (`MINYEAR`, day within month). -/
def tryFormat (toks : List DTok) (cs : List Char) : Option (ℤ × ℤ × ℤ) :=
  match runToks toks ⟨1900, 1, 1⟩ cs with
  | none => none
  | some a =>
    if 1 ≤ a.year ∧ (a.day : ℤ) ≤ daysInMonth (a.year : ℤ) (a.month : ℤ) then
      some ((a.year : ℤ), (a.month : ℤ), (a.day : ℤ))
    else none

/-- The `for fmt in formats_to_try` loop: first parse that succeeds,
already rendered by `parsed_date.strftime("%Y/%m/%d")`. -/
def tryFormats (s : String) : Option String :=
  (formatsToTry.findSome? (fun toks => tryFormat toks s.toList)).map
    (fun ymd => formatYMD ymd.1 ymd.2.1 ymd.2.2)

/-- `standardize_date_format(date_str)`.

* `flex` is `pd.to_datetime(·, errors='coerce')`, the external flexible
  parser, returning the parsed civil date or `none` (NaT);
* `now` is the instant `datetime.now()` reads, in minutes;
* the `Option String` input is `None`/NaN (→ `none`) or the string.

Mirrors the source tier by tier: sentinel check before stripping;
relative branch (falling through when the regex does not match even
though `"ago"` occurs, and returning the sentinel when the
delta/subtraction overflows and the raised exception reaches the outer
`except`); the ten explicit formats; the flexible parser; finally the
stripped string itself. -/
def standardize_date_format (flex : String → Option (ℤ × ℤ × ℤ)) (now : ℤ) :
    Option String → String
  | none => "N/A"
  | some s0 =>
    if s0 = "N/A" ∨ s0 = "" then "N/A"
    else
      let s := pyStrip s0
      let low := pyLower s
      match (if strContainsSub low "ago" then findRel low.toList else none) with
      | some (n, u) =>
        if relComputeOk now n u then formatMinutes (now - (n : ℤ) * unitMinutes u)
        else "N/A"
      | none =>
        match tryFormats s with
        | some out => out
        | none =>
          match flex s with
          | some ymd => formatYMD ymd.1 ymd.2.1 ymd.2.2
          | none => s

/-! ## Schema normalisation (`aggregation_tab.render_aggregation_tab`)

The per-file loop reads a platform tag from the filename and builds the
standardized frame column by column: per canonical field an ordered
`if column in df.columns` fallback chain, constants per platform, and
`standardize_date_format` applied to the date column's cells.  A raw
row is modelled as the map from column name to the row's cell text
(`none` = the column is absent from the file). -/

/-- A raw tabular row: column name to cell text; `none` = column
absent. -/
def RawRow : Type := String → Option String

/-- The three platform shapes the loop distinguishes. -/
inductive Platform where
  | talkwalker | newswhip | googleNews
deriving DecidableEq

/-- One row of the standardized frame.  `searchKeyword = none` means
the `Search_Keyword` column does not exist (it is created only for
Google News files). -/
structure CanonicalArticle where
  title : String
  url : String
  platform : String
  source : String
  sentiment : String
  language : String
  country : String
  sourceType : String
  publishedDate : String
  searchKeyword : Option String
deriving DecidableEq

/-- Ordered fallback chain: first present column wins. -/
def fallbackField (row : RawRow) (names : List String) : Option String :=
  names.findSome? row

/-- Resolve a date-bearing chain: if a column of the chain is present,
its cell goes through `standardize_date_format`, else the sentinel. -/
def dateField (flex : String → Option (ℤ × ℤ × ℤ)) (now : ℤ) (row : RawRow)
    (names : List String) : String :=
  match fallbackField row names with
  | some v => standardize_date_format flex now (some v)
  | none => "N/A"

/-- The platform branches of the aggregation loop, one row at a time
(the frame-level `df[col]`/`apply` operations act cellwise). -/
def normalizeRow (flex : String → Option (ℤ × ℤ × ℤ)) (now : ℤ) :
    Platform → RawRow → CanonicalArticle
  | .talkwalker, row =>
    { title := (fallbackField row ["title", "title_snippet"]).getD "N/A"
      url := (row "url").getD "N/A"
      platform := "Talkwalker"
      source := (row "domain_url").getD "Talkwalker"
      sentiment := (row "sentiment").getD "N/A"
      language := (row "lang").getD "N/A"
      country := (fallbackField row
        ["extra_source_attributes.world_data.country",
         "extra_author_attributes.world_data.country",
         "extra_article_attributes.world_data.country"]).getD "N/A"
      sourceType := (row "source_type").getD "N/A"
      publishedDate := dateField flex now row ["published", "indexed"]
      searchKeyword := none }
  | .newswhip, row =>
    { title := (row "Headline").getD "N/A"
      url := (row "Link").getD "N/A"
      platform := "Newswhip"
      source := (row "Domain").getD "Newswhip"
      sentiment := "N/A"
      language := "N/A"
      country := (row "Country").getD "N/A"
      sourceType := "News"
      publishedDate := dateField flex now row ["Published"]
      searchKeyword := none }
  | .googleNews, row =>
    { title := (row "title").getD "N/A"
      url := (row "link").getD "N/A"
      platform := "Google News"
      source := (row "source").getD "Google News"
      sentiment := "N/A"
      language := "N/A"
      country := "N/A"
      sourceType := "News"
      publishedDate := dateField flex now row ["date"]
      searchKeyword := some ((row "search_keyword").getD "N/A") }

/-- Does a date string take the relative-date branch (the only branch
of `standardize_date_format` that reads the clock)? -/
def relTriggered (s : String) : Bool :=
  let low := pyLower (pyStrip s)
  strContainsSub low "ago" && (findRel low.toList).isSome

/-- The date-bearing fallback chain each platform branch consults. -/
def dateChain : Platform → List String
  | .talkwalker => ["published", "indexed"]
  | .newswhip => ["Published"]
  | .googleNews => ["date"]

/-! ## Concrete instances used in witnesses and counterexamples -/

/-- A flexible parser that fails on everything: the behaviour of
`pd.to_datetime(·, errors='coerce')` on non-date text such as
`"N/A"` or `"abc"` (it yields `NaT`). -/
def flexNone : String → Option (ℤ × ℤ × ℤ) := fun _ => none

/-- 2025-01-10 00:00 in minutes. -/
def nowJan10 : ℤ := daysFromCivil 2025 1 10 * 1440

/-- 2025-01-20 00:00 in minutes. -/
def nowJan20 : ℤ := daysFromCivil 2025 1 20 * 1440

/-- A Google News raw row whose date cell is a relative date. -/
def rowRelDate : RawRow := fun c =>
  if c = "date" then some "3 days ago"
  else if c = "title" then some "T"
  else if c = "link" then some "http://x"
  else if c = "source" then some "S"
  else if c = "search_keyword" then some "K"
  else none

/-- A Google News raw row with an absolute date cell. -/
def rowAbsDate : RawRow := fun c =>
  if c = "date" then some "2025-05-07"
  else if c = "title" then some "T"
  else if c = "link" then some "http://x"
  else none

/-- Two candidates sharing one URL, one with a distinct URL: the
witness harvest input. -/
def pagesW : List (String × List PageCandidate) :=
  [("kw1",
    [{ link := "http://a", truncatedTitle := "t1", fullTitle := "Full One",
       snippet := "s1", date := "d1", source := "src1" },
     { link := "http://a", truncatedTitle := "t2", fullTitle := "",
       snippet := "s2", date := "d2", source := "src2" },
     { link := "http://b", truncatedTitle := "t3", fullTitle := "",
       snippet := "s3", date := "d3", source := "src3" },
     { link := "", truncatedTitle := "t4", fullTitle := "n4",
       snippet := "s4", date := "d4", source := "src4" },
     { link := "http://c", truncatedTitle := "", fullTitle := "",
       snippet := "s5", date := "d5", source := "src5" }])]

/-- Two distinct scored rows with equal `Relevance_Score`: a tie
group. -/
def rowTieA : ScoredRow :=
  { art := { title := "A", snippet := "", source := "" }
    keywordScore := 0, semanticScore := 0, relevanceScore := 5 }

/-- Second member of the tie group. -/
def rowTieB : ScoredRow :=
  { art := { title := "B", snippet := "", source := "" }
    keywordScore := 0, semanticScore := 0, relevanceScore := 5 }

/-- Witness article row. -/
def rowW : InArticle := { title := "a", snippet := "", source := "" }

/-- The scored row `scoreRows` produces for `rowW` with semantic score
30 under query `"a"`. -/
def scoredW : ScoredRow :=
  { art := rowW
    keywordScore := keyword_search_score "a" rowW.title rowW.snippet rowW.source
    semanticScore := pyRound2 30
    relevanceScore :=
      pyRound2 (keyword_search_score "a" rowW.title rowW.snippet rowW.source * (6 / 10)
        + 30 * (4 / 10)) }

/-! # Theorems -/

/-! ## Keyword score: bounds and refinement -/

theorem kss_nonneg (q t c s : String) : 0 ≤ keyword_search_score q t c s := by
  simp only [keyword_search_score]
  split_ifs with h1 h2 h3 h4
  · exact le_refl 0
  · exact le_refl 0
  · exact le_min (by positivity) (by norm_num)
  · exact le_min (by positivity) (by norm_num)
  · exact le_min (by positivity) (by norm_num)

theorem kss_le_100 (q t c s : String) : keyword_search_score q t c s ≤ 100 := by
  simp only [keyword_search_score]
  split_ifs with h1 h2 h3 h4
  · norm_num
  · norm_num
  · exact min_le_right _ _
  · exact min_le_right _ _
  · exact min_le_right _ _

theorem kss_eq_spec (q t c s : String) :
    keyword_search_score q t c s = keywordScoreSpec q t c s := by
  simp only [keyword_search_score, keywordScoreSpec]
  by_cases hq : q = ""
  · subst hq
    rw [if_pos rfl]
    have h0 : (tokenSet (preprocess_text "")).card = 0 := by decide
    rw [if_pos h0]
  · rw [if_neg hq]
    by_cases hc : (tokenSet (preprocess_text q)).card = 0
    · rw [if_pos hc, if_pos hc]
    · rw [if_neg hc, if_neg hc]
      have hbase : (0:ℚ) ≤
          ((tokenSet (preprocess_text q) ∩ tokenSet (preprocess_text t)).card : ℚ) /
              ((tokenSet (preprocess_text q)).card : ℚ) * 50 +
            ((tokenSet (preprocess_text q) ∩ tokenSet (preprocess_text c)).card : ℚ) /
              ((tokenSet (preprocess_text q)).card : ℚ) * 40 +
            ((tokenSet (preprocess_text q) ∩ tokenSet (preprocess_text s)).card : ℚ) /
              ((tokenSet (preprocess_text q)).card : ℚ) * 10 := by positivity
      split_ifs with h3 h4
      · rw [max_eq_right (le_min (by linarith) (by norm_num))]
      · rw [max_eq_right (le_min (by linarith) (by norm_num))]
      · rw [max_eq_right (le_min (by linarith) (by norm_num))]
        ring_nf

/-- Claim C3: the keyword score equals the spec formula
(`titleRatio*50 + contentRatio*40 + sourceRatio*10` plus the mutually
exclusive phrase bonus, clamped to [0,100]), an empty query scores 0
for every article, and the `"Virat Kohli"` scenario scores exactly
70. -/
theorem C3_keyword_formula :
    (∀ q t c s : String, keyword_search_score q t c s = keywordScoreSpec q t c s) ∧
    (∀ t c s : String, keyword_search_score "" t c s = 0) ∧
    keyword_search_score "Virat Kohli" "Virat Kohli Scores Century" "" "" = 70 := by
  refine ⟨kss_eq_spec, ?_, ?_⟩
  · intro t c s
    simp [keyword_search_score]
  · have h1 : strContainsSub (preprocess_text "Virat Kohli Scores Century")
        (preprocess_text "Virat Kohli") = true := by decide
    have h2 : (tokenSet (preprocess_text "Virat Kohli")).card = 2 := by decide
    have h3 : (tokenSet (preprocess_text "Virat Kohli") ∩
        tokenSet (preprocess_text "Virat Kohli Scores Century")).card = 2 := by decide
    have h4 : (tokenSet (preprocess_text "Virat Kohli") ∩
        tokenSet (preprocess_text "")).card = 0 := by decide
    simp only [keyword_search_score, h1, h2, h3, h4]
    norm_num
    decide

/-! ## Cauchy–Schwarz for the cosine similarity -/

theorem sumSq_nonneg (v : List ℚ) : 0 ≤ sumSq v := by
  unfold sumSq
  induction v with
  | nil => simp
  | cons x xs ih =>
    simp only [List.map_cons, List.sum_cons]
    nlinarith [sq_nonneg x]

theorem dotQ_nonneg : ∀ (u v : List ℚ), (∀ x ∈ u, 0 ≤ x) → (∀ x ∈ v, 0 ≤ x) →
    0 ≤ dotQ u v
  | [], _, _, _ => by simp [dotQ]
  | _ :: _, [], _, _ => by simp [dotQ]
  | x :: xs, y :: ys, hu, hv => by
    have hx : 0 ≤ x := hu x (List.mem_cons_self x xs)
    have hy : 0 ≤ y := hv y (List.mem_cons_self y ys)
    have ih := dotQ_nonneg xs ys (fun a ha => hu a (List.mem_cons_of_mem x ha))
      (fun a ha => hv a (List.mem_cons_of_mem y ha))
    simp only [dotQ]
    nlinarith

theorem dotQ_sq_le : ∀ (u v : List ℚ), (dotQ u v) ^ 2 ≤ sumSq u * sumSq v
  | [], v => by
    simp only [dotQ, sumSq, List.map_nil, List.sum_nil, zero_mul]
    norm_num
  | x :: xs, [] => by
    simp only [dotQ, sumSq, List.map_nil, List.sum_nil, mul_zero]
    norm_num
  | x :: xs, y :: ys => by
    have ih := dotQ_sq_le xs ys
    have hA : 0 ≤ sumSq xs := sumSq_nonneg xs
    have hB : 0 ≤ sumSq ys := sumSq_nonneg ys
    simp only [dotQ, sumSq, List.map_cons, List.sum_cons] at ih hA hB ⊢
    rcases eq_or_lt_of_le hB with hB0 | hBpos
    · have hd : dotQ xs ys = 0 := by nlinarith [sq_nonneg (dotQ xs ys)]
      rw [hd, ← hB0]
      nlinarith [mul_nonneg hA (sq_nonneg y)]
    · nlinarith [sq_nonneg (x * ((ys.map (fun a => a * a)).sum) - y * dotQ xs ys),
        mul_nonneg hA hB, sq_nonneg (x * y)]

/-! ## Cosine similarity bounds -/

theorem cosineSim_bounds (u v : List ℚ) (hu : ∀ x ∈ u, 0 ≤ x) (hv : ∀ x ∈ v, 0 ≤ x) :
    0 ≤ cosineSim u v ∧ cosineSim u v ≤ 1 := by
  unfold cosineSim
  split_ifs with h
  · norm_num
  · push_neg at h
    obtain ⟨hA, hB⟩ := h
    have hA' : (0:ℚ) < sumSq u := lt_of_le_of_ne (sumSq_nonneg u) (Ne.symm hA)
    have hB' : (0:ℚ) < sumSq v := lt_of_le_of_ne (sumSq_nonneg v) (Ne.symm hB)
    have hAr : (0:ℝ) < ((sumSq u : ℚ) : ℝ) := by exact_mod_cast hA'
    have hBr : (0:ℝ) < ((sumSq v : ℚ) : ℝ) := by exact_mod_cast hB'
    have hsA : 0 < Real.sqrt ((sumSq u : ℚ) : ℝ) := Real.sqrt_pos.mpr hAr
    have hsB : 0 < Real.sqrt ((sumSq v : ℚ) : ℝ) := Real.sqrt_pos.mpr hBr
    constructor
    · apply div_nonneg
      · exact_mod_cast dotQ_nonneg u v hu hv
      · positivity
    · rw [div_le_one (by positivity)]
      have hcs : (((dotQ u v : ℚ) : ℝ)) ^ 2 ≤ ((sumSq u : ℚ) : ℝ) * ((sumSq v : ℚ) : ℝ) := by
        exact_mod_cast dotQ_sq_le u v
      calc ((dotQ u v : ℚ) : ℝ)
          ≤ Real.sqrt (((sumSq u : ℚ) : ℝ) * ((sumSq v : ℚ) : ℝ)) :=
            Real.le_sqrt_of_sq_le hcs
        _ = Real.sqrt ((sumSq u : ℚ) : ℝ) * Real.sqrt ((sumSq v : ℚ) : ℝ) :=
            Real.sqrt_mul hAr.le _

/-! ## Rounding bounds -/

theorem pyRound2_bounds (x : ℚ) (h0 : 0 ≤ x) (h100 : x ≤ 100) :
    0 ≤ pyRound2 x ∧ pyRound2 x ≤ 100 := by
  simp only [pyRound2, bankers]
  have ht0 : (0:ℚ) ≤ x * 100 := by linarith
  have ht1 : x * 100 ≤ 10000 := by linarith
  have hfl0 : (0:ℤ) ≤ ⌊x * 100⌋ := Int.floor_nonneg.mpr ht0
  have hflle : ((⌊x * 100⌋ : ℤ) : ℚ) ≤ x * 100 := Int.floor_le _
  have hup : (⌊x * 100⌋ : ℤ) ≤ 10000 := by
    have : ((⌊x * 100⌋ : ℤ) : ℚ) ≤ 10000 := le_trans hflle ht1
    exact_mod_cast this
  have hup1 : (1:ℚ) / 2 ≤ x * 100 - ((⌊x * 100⌋ : ℤ) : ℚ) → (⌊x * 100⌋ : ℤ) + 1 ≤ 10000 := by
    intro hfr
    have : ((⌊x * 100⌋ : ℤ) : ℚ) < 10000 := by linarith
    have h' : (⌊x * 100⌋ : ℤ) < 10000 := by exact_mod_cast this
    omega
  split_ifs with hfr hfr2 hev
  · constructor
    · positivity
    · rw [div_le_iff₀ (by norm_num : (0:ℚ) < 100)]
      have : ((⌊x * 100⌋ : ℤ) : ℚ) ≤ 10000 := by exact_mod_cast hup
      linarith
  · constructor
    · have : (0:ℤ) ≤ ⌊x * 100⌋ + 1 := by omega
      have h' : (0:ℚ) ≤ ((⌊x * 100⌋ + 1 : ℤ) : ℚ) := by exact_mod_cast this
      positivity
    · rw [div_le_iff₀ (by norm_num : (0:ℚ) < 100)]
      have h' := hup1 (by linarith)
      have : ((⌊x * 100⌋ + 1 : ℤ) : ℚ) ≤ 10000 := by exact_mod_cast h'
      push_cast at this ⊢
      linarith
  · constructor
    · positivity
    · rw [div_le_iff₀ (by norm_num : (0:ℚ) < 100)]
      have : ((⌊x * 100⌋ : ℤ) : ℚ) ≤ 10000 := by exact_mod_cast hup
      linarith
  · constructor
    · have : (0:ℤ) ≤ ⌊x * 100⌋ + 1 := by omega
      have h' : (0:ℚ) ≤ ((⌊x * 100⌋ + 1 : ℤ) : ℚ) := by exact_mod_cast this
      positivity
    · rw [div_le_iff₀ (by norm_num : (0:ℚ) < 100)]
      have h' := hup1 (by linarith)
      have : ((⌊x * 100⌋ + 1 : ℤ) : ℚ) ≤ 10000 := by exact_mod_cast h'
      push_cast at this ⊢
      linarith

/-! ## Sorting: order and stability -/

theorem sortValuesDesc_pairwise {α : Type} (key : α → ℚ) (l : List α) :
    (sortValuesDesc key l).Pairwise (fun a b => key b ≤ key a) := by
  unfold sortValuesDesc
  rw [List.pairwise_reverse]
  exact List.sorted_insertionSort (keyLe key) l.reverse

theorem mem_sortValuesDesc {α : Type} (key : α → ℚ) (l : List α) (x : α) :
    x ∈ sortValuesDesc key l ↔ x ∈ l := by
  unfold sortValuesDesc
  rw [List.mem_reverse, List.mem_insertionSort, List.mem_reverse]

theorem sortValuesDesc_perm {α : Type} (key : α → ℚ) (l : List α) :
    (sortValuesDesc key l).Perm l := by
  unfold sortValuesDesc
  exact ((List.insertionSort (keyLe key) l.reverse).reverse_perm.trans
    (List.perm_insertionSort (keyLe key) l.reverse)).trans (List.reverse_perm l)

/-- Claim C1 (code-bug exhibit): the ranked output of
`calculate_combined_relevance_score` always meets the contract the
source's `sort_values` call actually provides — a permutation of the
scored rows that is non-increasing in `Relevance_Score` — but that
contract (default `kind='quicksort'`, no stability guarantee) also
admits outputs in which equal-score rows do *not* keep their pre-sort
order: the claimed (and spec-required) stability is not provided by the
program. -/
theorem C1_quicksort_contract :
    (∀ (query : String) (rows : List (InArticle × ℚ)),
      IsSortValuesDescResult (fun r => r.relevanceScore)
        (scoreRows query rows) (calculate_combined_relevance_score query rows)) ∧
    (IsSortValuesDescResult (fun r => r.relevanceScore)
        [rowTieA, rowTieB] [rowTieB, rowTieA] ∧
      [rowTieB, rowTieA].filter (fun r => r.relevanceScore = 5)
        ≠ [rowTieA, rowTieB].filter (fun r => r.relevanceScore = 5)) := by
  constructor
  · intro query rows
    unfold calculate_combined_relevance_score
    exact ⟨sortValuesDesc_perm (fun r => r.relevanceScore) (scoreRows query rows),
      sortValuesDesc_pairwise (fun r => r.relevanceScore) (scoreRows query rows)⟩
  · refine ⟨⟨List.Perm.swap rowTieA rowTieB [], ?_⟩, ?_⟩
    · decide
    · decide

/-- Claim C1 witness: the contract part applied at a concrete query
and collection. -/
theorem C1_witness :
    IsSortValuesDescResult (fun r => r.relevanceScore)
      (scoreRows "a" [(rowW, 30)]) (calculate_combined_relevance_score "a" [(rowW, 30)]) :=
  C1_quicksort_contract.1 "a" [(rowW, 30)]

/-- Claim C2: all three scores lie in [0,100]: the keyword score for
any inputs; the semantic score for any tf-idf vectors (whose entries
are nonnegative, as sklearn produces them); and all three stored
columns of every row of the ranked output, whenever the semantic input
scores are in range. -/
theorem C2_scores_in_range :
    (∀ q t c s : String, 0 ≤ keyword_search_score q t c s ∧ keyword_search_score q t c s ≤ 100) ∧
    (∀ u v : List ℚ, (∀ x ∈ u, 0 ≤ x) → (∀ x ∈ v, 0 ≤ x) →
      0 ≤ semanticScoreOfVecs u v ∧ semanticScoreOfVecs u v ≤ 100) ∧
    (∀ (query : String) (rows : List (InArticle × ℚ)),
      (∀ p ∈ rows, 0 ≤ p.2 ∧ p.2 ≤ 100) →
      ∀ r ∈ calculate_combined_relevance_score query rows,
        (0 ≤ r.keywordScore ∧ r.keywordScore ≤ 100) ∧
        (0 ≤ r.semanticScore ∧ r.semanticScore ≤ 100) ∧
        (0 ≤ r.relevanceScore ∧ r.relevanceScore ≤ 100)) := by
  refine ⟨fun q t c s => ⟨kss_nonneg q t c s, kss_le_100 q t c s⟩, ?_, ?_⟩
  · intro u v hu hv
    have h := cosineSim_bounds u v hu hv
    unfold semanticScoreOfVecs
    constructor
    · linarith [h.1]
    · linarith [h.2]
  · intro query rows hrows r hr
    unfold calculate_combined_relevance_score at hr
    rw [mem_sortValuesDesc] at hr
    unfold scoreRows at hr
    rw [List.mem_map] at hr
    obtain ⟨p, hp, rfl⟩ := hr
    have hps := hrows p hp
    have hk0 := kss_nonneg query p.1.title p.1.snippet p.1.source
    have hk1 := kss_le_100 query p.1.title p.1.snippet p.1.source
    refine ⟨⟨hk0, hk1⟩, ?_, ?_⟩
    · exact pyRound2_bounds p.2 hps.1 hps.2
    · refine pyRound2_bounds _ ?_ ?_
      · nlinarith [hps.1, hk0]
      · nlinarith [hps.2, hk1]

/-- Claim C2 witness: the bounds hold at a concrete vector pair, and at
the single ranked row produced by query `"a"` over one article with
semantic score 30. -/
theorem C2_witness :
    (0 ≤ semanticScoreOfVecs [1] [1] ∧ semanticScoreOfVecs [1] [1] ≤ 100) ∧
    ((0 ≤ scoredW.keywordScore ∧ scoredW.keywordScore ≤ 100) ∧
     (0 ≤ scoredW.semanticScore ∧ scoredW.semanticScore ≤ 100) ∧
     (0 ≤ scoredW.relevanceScore ∧ scoredW.relevanceScore ≤ 100)) := by
  constructor
  · exact C2_scores_in_range.2.1 [1] [1] (by norm_num) (by norm_num)
  · refine C2_scores_in_range.2.2 "a" [(rowW, 30)] ?_ scoredW ?_
    · intro p hp
      rw [List.mem_singleton] at hp
      subst hp
      norm_num
    · unfold calculate_combined_relevance_score
      rw [mem_sortValuesDesc]
      exact List.mem_singleton.mpr rfl

/-- Claim C4: selection by `"Number"` takes the first
`min(requested, available)` rows in order (in particular all rows when
the request is at least the length); selection by percentage takes the
first `max(1, floor(available*pct/100))` rows; percentage 0 over a
non-empty collection yields exactly one row. -/
theorem C4_selection (df : List ScoredRow) :
    (∀ n : ℕ, filter_top_results df "Number" (n : ℚ) = df.take (min n df.length)) ∧
    (∀ p : ℚ, 0 ≤ p → filter_top_results df "Percentage" p
        = df.take (max 1 ⌊(df.length : ℚ) * (p / 100)⌋).toNat) ∧
    (df ≠ [] → (filter_top_results df "Percentage" 0).length = 1) ∧
    (∀ n : ℕ, df.length ≤ n → filter_top_results df "Number" (n : ℚ) = df) := by
  have hnum : ∀ n : ℕ, filter_top_results df "Number" (n : ℚ) = df.take (min n df.length) := by
    intro n
    unfold filter_top_results
    by_cases hdf : df.isEmpty
    · rw [if_pos hdf]
      rw [List.isEmpty_iff] at hdf
      subst hdf
      simp
    · rw [if_neg hdf, if_pos rfl]
      unfold pandasHead pyTrunc
      have hn0 : ¬ ((n : ℚ) < 0) := not_lt.mpr (by positivity)
      rw [if_neg hn0, Int.floor_natCast]
      have hge : (0:ℤ) ≤ min (n : ℤ) (df.length : ℤ) := by omega
      rw [if_pos hge]
      congr 1
      omega
  have hpct : ∀ p : ℚ, 0 ≤ p → filter_top_results df "Percentage" p
      = df.take (max 1 ⌊(df.length : ℚ) * (p / 100)⌋).toNat := by
    intro p hp
    unfold filter_top_results
    by_cases hdf : df.isEmpty
    · rw [if_pos hdf]
      rw [List.isEmpty_iff] at hdf
      subst hdf
      simp
    · rw [if_neg hdf]
      rw [if_neg (by decide : ¬ ("Percentage" = "Number"))]
      unfold pandasHead pyTrunc
      have harg : ¬ ((df.length : ℚ) * (p / 100) < 0) := not_lt.mpr (by positivity)
      rw [if_neg harg]
      have hge : (0:ℤ) ≤ max 1 ⌊(df.length : ℚ) * (p / 100)⌋ := by omega
      rw [if_pos hge]
  refine ⟨hnum, hpct, ?_, ?_⟩
  · intro hne
    rw [hpct 0 (le_refl 0)]
    have h0 : ⌊(df.length : ℚ) * ((0:ℚ) / 100)⌋ = 0 := by norm_num
    rw [h0]
    simp only [max_eq_left (by norm_num : (0:ℤ) ≤ 1)]
    rw [List.length_take]
    have : 1 ≤ df.length := List.length_pos.mpr hne
    omega
  · intro n hn
    rw [hnum n]
    rw [min_eq_right hn]
    exact List.take_length df

/-- Claim C4 witness: the selection behaviours at a concrete singleton
collection. -/
theorem C4_witness :
    (filter_top_results [scoredW] "Percentage" 0).length = 1 ∧
    filter_top_results [scoredW] "Number" ((5 : ℕ) : ℚ) = [scoredW] ∧
    filter_top_results [scoredW] "Percentage" 50
      = [scoredW].take (max 1 ⌊(([scoredW] : List ScoredRow).length : ℚ) * (50 / 100)⌋).toNat := by
  refine ⟨(C4_selection [scoredW]).2.2.1 (by simp),
    (C4_selection [scoredW]).2.2.2 5 (by simp),
    (C4_selection [scoredW]).2.1 50 (by norm_num)⟩

/-! ## Harvester lemmas -/

theorem dedupAux_mem_inv : ∀ (l : List Stub) (seen : List String) (r : Stub),
    r ∈ dedupAux seen l → (r ∈ l ∧ r.link ∉ seen ∧ r.link ≠ "")
  | [], _, _, h => by simp [dedupAux] at h
  | x :: rest, seen, r, h => by
    simp only [dedupAux] at h
    split_ifs at h with hx
    · rcases List.mem_cons.mp h with hrx | hr
      · subst hrx
        exact ⟨List.mem_cons_self _ _, hx.2, hx.1⟩
      · have := dedupAux_mem_inv rest (x.link :: seen) r hr
        refine ⟨List.mem_cons_of_mem _ this.1, ?_, this.2.2⟩
        intro hseen
        exact this.2.1 (List.mem_cons_of_mem _ hseen)
    · have := dedupAux_mem_inv rest seen r h
      exact ⟨List.mem_cons_of_mem _ this.1, this.2.1, this.2.2⟩

theorem dedupAux_pairwise : ∀ (l : List Stub) (seen : List String),
    (dedupAux seen l).Pairwise (fun a b => a.link ≠ b.link)
  | [], _ => List.Pairwise.nil
  | x :: rest, seen => by
    simp only [dedupAux]
    split_ifs with hx
    · refine List.Pairwise.cons ?_ (dedupAux_pairwise rest (x.link :: seen))
      intro b hb
      have := dedupAux_mem_inv rest (x.link :: seen) b hb
      intro heq
      exact this.2.1 (heq ▸ List.mem_cons_self _ _)
    · exact dedupAux_pairwise rest seen

theorem dedupAux_filter_seen : ∀ (l : List Stub) (seen : List String) (u : String),
    u ∈ seen → (dedupAux seen l).filter (fun r => r.link = u) = []
  | l, seen, u, hu => by
    rw [List.filter_eq_nil_iff]
    intro r hr
    have := dedupAux_mem_inv l seen r hr
    simp only [decide_eq_true_eq]
    intro heq
    exact this.2.1 (heq ▸ hu)

theorem dedupAux_filter_first : ∀ (l : List Stub) (seen : List String) (u : String),
    u ≠ "" → u ∉ seen →
    (dedupAux seen l).filter (fun r => r.link = u)
      = (l.filter (fun r => r.link = u)).take 1
  | [], _, _, _, _ => rfl
  | x :: rest, seen, u, hu, hseen => by
    simp only [dedupAux]
    by_cases hxu : x.link = u
    · have hkeep : x.link ≠ "" ∧ x.link ∉ seen := by
        rw [hxu]
        exact ⟨hu, hseen⟩
      have hseen2 : u ∈ x.link :: seen := by
        rw [hxu]
        exact List.mem_cons_self _ _
      rw [if_pos hkeep]
      have h1 : (x :: dedupAux (x.link :: seen) rest).filter (fun r => r.link = u)
          = x :: (dedupAux (x.link :: seen) rest).filter (fun r => r.link = u) := by
        simp [List.filter_cons, hxu]
      rw [h1, dedupAux_filter_seen rest (x.link :: seen) u hseen2]
      have h2 : (x :: rest).filter (fun r => r.link = u)
          = x :: rest.filter (fun r => r.link = u) := by
        simp [List.filter_cons, hxu]
      rw [h2]
      simp
    · have h2 : (x :: rest).filter (fun r => r.link = u)
          = rest.filter (fun r => r.link = u) := by
        simp [List.filter_cons, hxu]
      by_cases hk : x.link ≠ "" ∧ x.link ∉ seen
      · rw [if_pos hk]
        have h1 : (x :: dedupAux (x.link :: seen) rest).filter (fun r => r.link = u)
            = (dedupAux (x.link :: seen) rest).filter (fun r => r.link = u) := by
          simp [List.filter_cons, hxu]
        have hnotin : u ∉ x.link :: seen := by
          intro hmem
          rcases List.mem_cons.mp hmem with h | h
          · exact hxu h.symm
          · exact hseen h
        rw [h1, h2, dedupAux_filter_first rest (x.link :: seen) u hu hnotin]
      · rw [if_neg hk, h2]
        exact dedupAux_filter_first rest seen u hu hseen

theorem mem_scrapePageStubs {cands : List PageCandidate} {st : Stub}
    (h : st ∈ scrapePageStubs cands) : st.title ≠ "" ∧ st.link ≠ "" := by
  unfold scrapePageStubs at h
  rw [List.mem_filterMap] at h
  obtain ⟨c, _, hc⟩ := h
  split_ifs at hc with hcond
  · cases hc
    exact ⟨hcond.1, hcond.2⟩

theorem mem_mergePages {pages : List (String × List PageCandidate)} {st : Stub}
    (h : st ∈ mergePages pages) : st.title ≠ "" ∧ st.link ≠ "" := by
  unfold mergePages at h
  rw [List.mem_flatten] at h
  obtain ⟨l, hl, hst⟩ := h
  rw [List.mem_map] at hl
  obtain ⟨p, _, rfl⟩ := hl
  unfold tagKeyword at hst
  rw [List.mem_map] at hst
  obtain ⟨s, hs, rfl⟩ := hst
  have := mem_scrapePageStubs hs
  exact ⟨this.1, this.2⟩

theorem dedupAux_sublist_mem : ∀ (l : List Stub) (seen : List String) (r : Stub),
    r ∈ dedupAux seen l → r ∈ l :=
  fun l seen r h => (dedupAux_mem_inv l seen r h).1

/-- Claim C5: after merging the per-keyword page results (in any
completion order) and deduplicating by URL, no two output records share
a link, and for every URL present among the merged stubs exactly the
first-seen stub with that URL survives. -/
theorem C5_dedup_by_url (pages : List (String × List PageCandidate)) :
    (dedupByUrl (mergePages pages)).Pairwise (fun a b => a.link ≠ b.link) ∧
    (∀ u : String, (mergePages pages).filter (fun r => r.link = u) ≠ [] →
      (dedupByUrl (mergePages pages)).filter (fun r => r.link = u)
        = ((mergePages pages).filter (fun r => r.link = u)).take 1) := by
  constructor
  · exact dedupAux_pairwise (mergePages pages) []
  · intro u hne
    have hu : u ≠ "" := by
      obtain ⟨r, hr⟩ := List.exists_mem_of_ne_nil _ hne
      have hrm := List.mem_filter.mp hr
      have hru : r.link = u := by
        have := hrm.2
        simpa using this
      have := mem_mergePages hrm.1
      rw [← hru]
      exact this.2
    exact dedupAux_filter_first (mergePages pages) [] u hu (List.not_mem_nil u)

/-- Claim C5 witness: two merged stubs share `http://a`; exactly the
first-seen one survives, and the output links are pairwise distinct. -/
theorem C5_witness :
    (dedupByUrl (mergePages pagesW)).Pairwise (fun a b => a.link ≠ b.link) ∧
    (dedupByUrl (mergePages pagesW)).filter (fun r => r.link = "http://a")
      = ((mergePages pagesW).filter (fun r => r.link = "http://a")).take 1 :=
  ⟨(C5_dedup_by_url pagesW).1,
   (C5_dedup_by_url pagesW).2 "http://a" (by decide)⟩

/-- Claim C10: a parsed stub with an empty resolved title or link is
never appended by `_scrape_page`; a merged record with an empty link is
dropped by the deduplication; and every record of a successful
harvest's final output has a non-empty title and link. -/
theorem C10_nonempty_title_link :
    (∀ (cands : List PageCandidate) (st : Stub), st ∈ scrapePageStubs cands →
      st.title ≠ "" ∧ st.link ≠ "") ∧
    (∀ (l : List Stub) (r : Stub), r ∈ dedupByUrl l → r.link ≠ "") ∧
    (∀ (pages : List (String × List PageCandidate)) (kwArg : String) (rows : List Stub),
      get_news_data kwArg (mergePages pages) = Except.ok (some rows) →
      ∀ r ∈ rows, r.title ≠ "" ∧ r.link ≠ "") := by
  refine ⟨fun _ _ h => mem_scrapePageStubs h, ?_, ?_⟩
  · intro l r h
    exact (dedupAux_mem_inv l [] r h).2.2
  · intro pages kwArg rows h r hr
    unfold get_news_data at h
    by_cases hkw : splitKeywords kwArg = []
    · rw [if_pos hkw] at h
      exact Except.noConfusion h
    · rw [if_neg hkw] at h
      replace h : (if (dedupByUrl (mergePages pages)).isEmpty = true then
          (Except.ok none : Except String (Option (List Stub)))
          else Except.ok (some (dedupByUrl (mergePages pages)))) = Except.ok (some rows) := h
      by_cases he : (dedupByUrl (mergePages pages)).isEmpty = true
      · rw [if_pos he] at h
        exact Option.noConfusion (Except.ok.inj h)
      · rw [if_neg he] at h
        have hrows : dedupByUrl (mergePages pages) = rows := Option.some.inj (Except.ok.inj h)
        rw [← hrows] at hr
        have hinv := dedupAux_mem_inv (mergePages pages) [] r hr
        have hmerge := mem_mergePages hinv.1
        exact ⟨hmerge.1, hinv.2.2⟩

/-- Claim C10 witness: the harvest of `pagesW` succeeds and its
first-seen record for `http://a` has non-empty title and link. -/
theorem C10_witness :
    ({ link := "http://a", title := "Full One", snippet := "s1", date := "d1",
       source := "src1", search_keyword := "kw1" } : Stub).title ≠ "" ∧
    ({ link := "http://a", title := "Full One", snippet := "s1", date := "d1",
       source := "src1", search_keyword := "kw1" } : Stub).link ≠ "" :=
  C10_nonempty_title_link.2.2 pagesW "kw1" (dedupByUrl (mergePages pagesW))
    rfl
    { link := "http://a", title := "Full One", snippet := "s1", date := "d1",
      source := "src1", search_keyword := "kw1" }
    (by decide)

/-- Claim C8 counterexample: with a valid keyword and no surviving
stubs, `get_news_data` returns the sentinel `None` — it does not
return an empty collection (and does not raise). -/
theorem C8_counterexample :
    get_news_data "a" [] = Except.ok none ∧
    get_news_data "a" [] ≠ Except.ok (some ([] : List Stub)) := by
  constructor
  · rfl
  · intro h
    have h' := Except.ok.inj h
    exact Option.noConfusion h'

/-- Claim C8 (amended): with a non-empty trimmed keyword list and zero
surviving stubs after deduplication, `get_news_data` returns the
no-results sentinel `None` (no exception, no output file) rather than
raising an error. -/
theorem C8_no_error_on_empty (kwArg : String) (allResults : List Stub)
    (hkw : splitKeywords kwArg ≠ []) (hded : dedupByUrl allResults = []) :
    get_news_data kwArg allResults = Except.ok none := by
  unfold get_news_data
  rw [if_neg hkw]
  simp only [hded, List.isEmpty_nil, if_true]

/-- Claim C8 witness. -/
theorem C8_witness : get_news_data "a" [] = Except.ok none :=
  C8_no_error_on_empty "a" [] (by decide) (by decide)

/-! ## Relative-date lemmas -/

theorem listContainsSub_cons (c : Char) (t needle : List Char) :
    listContainsSub (c :: t) needle
      = (listStarts (c :: t) needle || listContainsSub t needle) := rfl

theorem listStarts_drop : ∀ (cs : List Char) (k : ℕ) (needle : List Char),
    listStarts (cs.drop k) needle = true → listContainsSub cs needle = true
  | [], k, needle, h => by
    rw [List.drop_nil] at h
    unfold listContainsSub
    rw [h]
    rfl
  | c :: t, 0, needle, h => by
    rw [List.drop_zero] at h
    rw [listContainsSub_cons, h]
    rfl
  | c :: t, k + 1, needle, h => by
    rw [List.drop_succ_cons] at h
    rw [listContainsSub_cons, listStarts_drop t k needle h]
    exact Bool.or_true _

theorem dropWhile_eq_drop (p : Char → Bool) : ∀ (l : List Char),
    ∃ k, l.dropWhile p = l.drop k
  | [] => ⟨0, rfl⟩
  | c :: t => by
    by_cases hc : p c = true
    · obtain ⟨k, hk⟩ := dropWhile_eq_drop p t
      exact ⟨k + 1, by rw [List.dropWhile_cons_of_pos hc, List.drop_succ_cons, hk]⟩
    · exact ⟨0, by rw [List.dropWhile_cons_of_neg hc, List.drop_zero]⟩

theorem parseUnitAt_drop {cs rest : List Char} {u : TimeUnit}
    (h : parseUnitAt cs = some (u, rest)) : ∃ k, rest = cs.drop k := by
  unfold parseUnitAt at h
  split_ifs at h <;>
    (cases h; first
      | exact ⟨6, rfl⟩
      | exact ⟨4, rfl⟩
      | exact ⟨3, rfl⟩
      | exact ⟨5, rfl⟩)

theorem matchRelTail_suffix {cs : List Char} {r : ℕ × TimeUnit}
    (h : matchRelTail cs = some r) :
    ∃ k, listStarts (cs.drop k) "ago".toList = true := by
  simp only [matchRelTail] at h
  by_cases hds : (cs.takeWhile Char.isDigit).isEmpty = true
  · rw [if_pos hds] at h
    exact Option.noConfusion h
  · rw [if_neg hds] at h
    rcases hpu : parseUnitAt ((cs.dropWhile Char.isDigit).dropWhile pyWhitespace)
        with _ | ⟨u, rest2⟩
    · rw [hpu] at h
      exact Option.noConfusion h
    · rw [hpu] at h
      dsimp only at h
      obtain ⟨a, ha⟩ := dropWhile_eq_drop Char.isDigit cs
      obtain ⟨b, hb⟩ := dropWhile_eq_drop pyWhitespace (cs.dropWhile Char.isDigit)
      obtain ⟨c, hc⟩ := parseUnitAt_drop hpu
      have h1 : (cs.dropWhile Char.isDigit).dropWhile pyWhitespace = cs.drop (a + b) := by
        rw [hb, ha, List.drop_drop]
      have h2 : rest2 = cs.drop (a + b + c) := by
        rw [hc, h1, List.drop_drop]
      by_cases hs1 : listStarts rest2 "s".toList = true
      · rw [if_pos hs1] at h
        obtain ⟨e, he⟩ := dropWhile_eq_drop pyWhitespace (rest2.drop 1)
        by_cases hago : listStarts ((rest2.drop 1).dropWhile pyWhitespace) "ago".toList = true
        · refine ⟨a + b + c + (1 + e), ?_⟩
          rw [he, h2, List.drop_drop, List.drop_drop] at hago
          exact hago
        · rw [if_neg hago] at h
          exact Option.noConfusion h
      · rw [if_neg hs1] at h
        obtain ⟨e, he⟩ := dropWhile_eq_drop pyWhitespace rest2
        by_cases hago : listStarts (rest2.dropWhile pyWhitespace) "ago".toList = true
        · refine ⟨a + b + c + e, ?_⟩
          rw [he, h2, List.drop_drop] at hago
          exact hago
        · rw [if_neg hago] at h
          exact Option.noConfusion h

theorem findRel_contains : ∀ (cs : List Char) (r : ℕ × TimeUnit),
    findRel cs = some r → listContainsSub cs "ago".toList = true
  | [], r, h => Option.noConfusion h
  | c :: t, r, h => by
    simp only [findRel] at h
    rcases hm : matchRelTail (c :: t) with _ | m
    · rw [hm] at h
      have := findRel_contains t r h
      rw [listContainsSub_cons, this]
      exact Bool.or_true _
    · rw [hm] at h
      obtain ⟨k, hk⟩ := matchRelTail_suffix hm
      exact listStarts_drop (c :: t) k _ hk

theorem unitMinutes_nonneg (u : TimeUnit) : 0 ≤ unitMinutes u := by
  cases u <;> simp [unitMinutes]

/-- Claim C6 (amended): whenever the relative-date regex matches the
(lowercased, stripped) input — `<N> <unit> ago`, unit in {minute, hour,
day, week, month, year}, optional plural — then, provided the offset
fits `pd.Timedelta`'s 2^63 − 1 ns range and the result is not before
`datetime.min`, the result is `now - N*unit` (month = 30 days, year =
365 days) rendered `%Y/%m/%d`, whose day never exceeds `now`'s day;
when either bound overflows, the caught exception degrades to the
sentinel `"N/A"`.  The fixed scenario: `"3 days ago"` at
now = 2025-01-10 gives `"2025/01/07"`. -/
theorem C6_relative_dates :
    (∀ (flex : String → Option (ℤ × ℤ × ℤ)) (now : ℤ) (s : String) (n : ℕ) (u : TimeUnit),
      s ≠ "" → s ≠ "N/A" →
      findRel (pyLower (pyStrip s)).toList = some (n, u) →
      (relComputeOk now n u →
        standardize_date_format flex now (some s)
            = formatMinutes (now - (n : ℤ) * unitMinutes u) ∧
          dayOfMinutes (now - (n : ℤ) * unitMinutes u) ≤ dayOfMinutes now) ∧
      (¬ relComputeOk now n u →
        standardize_date_format flex now (some s) = "N/A")) ∧
    standardize_date_format flexNone nowJan10 (some "3 days ago") = "2025/01/07" := by
  constructor
  · intro flex now s n u hs1 hs2 hrel
    have hguard : ¬ (s = "N/A" ∨ s = "") := by
      intro hg
      rcases hg with hg | hg
      · exact hs2 hg
      · exact hs1 hg
    have hcont : strContainsSub (pyLower (pyStrip s)) "ago" = true :=
      findRel_contains (pyLower (pyStrip s)).toList (n, u) hrel
    constructor
    · intro hok
      constructor
      · simp only [standardize_date_format, if_neg hguard, hcont, if_true, hrel,
          if_pos hok]
      · unfold dayOfMinutes
        refine Int.ediv_le_ediv (by norm_num) ?_
        have h1 : 0 ≤ (n : ℤ) * unitMinutes u :=
          mul_nonneg (Int.natCast_nonneg n) (unitMinutes_nonneg u)
        omega
    · intro hbad
      simp only [standardize_date_format, if_neg hguard, hcont, if_true, hrel,
        if_neg hbad]
  · have hcont : strContainsSub (pyLower (pyStrip "3 days ago")) "ago" = true := by decide
    have hrel : findRel (pyLower (pyStrip "3 days ago")).toList = some (3, TimeUnit.day) := by
      decide
    have hguard : ¬ (("3 days ago" : String) = "N/A" ∨ ("3 days ago" : String) = "") := by
      decide
    simp only [standardize_date_format, if_neg hguard, hcont, if_true, hrel]
    decide

/-- Claim C6 counterexample: `"300 years ago"` matches the relative
pattern (N = 300, unit = year), yet the program returns the sentinel —
300×365 days overflow `pd.Timedelta`, the `OutOfBoundsTimedelta` is
caught, and `"N/A"` comes back instead of the formatted
`now − N·unit`. -/
theorem C6_counterexample :
    findRel (pyLower (pyStrip "300 years ago")).toList = some (300, TimeUnit.year) ∧
    standardize_date_format flexNone nowJan10 (some "300 years ago") = "N/A" ∧
    standardize_date_format flexNone nowJan10 (some "300 years ago")
      ≠ formatMinutes (nowJan10 - (300 : ℕ) * unitMinutes TimeUnit.year) := by
  refine ⟨by decide, by decide, by decide⟩

/-- Claim C6 witness: the in-range branch applied at the scenario
input, and the overflow branch applied at `"300 years ago"`. -/
theorem C6_witness :
    (standardize_date_format flexNone nowJan10 (some "3 days ago")
        = formatMinutes (nowJan10 - (3 : ℕ) * unitMinutes TimeUnit.day) ∧
      dayOfMinutes (nowJan10 - (3 : ℕ) * unitMinutes TimeUnit.day) ≤ dayOfMinutes nowJan10) ∧
    standardize_date_format flexNone nowJan10 (some "300 years ago") = "N/A" :=
  ⟨((C6_relative_dates.1 flexNone nowJan10 "3 days ago" 3 TimeUnit.day
      (by decide) (by decide) (by decide)).1 (by decide)),
   ((C6_relative_dates.1 flexNone nowJan10 "300 years ago" 300 TimeUnit.year
      (by decide) (by decide) (by decide)).2 (by decide))⟩

/-! ## Date-format output shape -/

theorem padNum_length (k : ℕ) (n : ℤ) : k ≤ (padNum k n).length := by
  unfold padNum
  rw [String.length_append]
  have h1 : (String.mk (List.replicate (k - (toString n.toNat).length) '0')).length
      = k - (toString n.toNat).length := List.length_replicate _ _
  omega

theorem formatYMD_length (y m d : ℤ) : 6 ≤ (formatYMD y m d).length := by
  unfold formatYMD
  rw [String.length_append, String.length_append, String.length_append,
    String.length_append]
  have h2 := padNum_length 2 m
  have h3 := padNum_length 2 d
  have hs : ("/" : String).length = 1 := rfl
  omega

theorem formatYMD_ne_NA (y m d : ℤ) : formatYMD y m d ≠ "N/A" := by
  intro h
  have h6 := formatYMD_length y m d
  rw [h] at h6
  have : ("N/A" : String).length = 3 := rfl
  omega

theorem tryFormats_shape {s : String} {out : String} (h : tryFormats s = some out) :
    ∃ y m d, out = formatYMD y m d := by
  unfold tryFormats at h
  obtain ⟨ymd, _, hout⟩ := Option.map_eq_some'.mp h
  exact ⟨ymd.1, ymd.2.1, ymd.2.2, hout.symm⟩

/-- Claim C7 (amended): the Date Normalizer is total and returns the
sentinel `"N/A"` only when the input is missing, empty, the sentinel
itself, a string that strips to the sentinel, or a matched relative
date whose offset overflows the `Timedelta`/`datetime` range (the
caught-exception path); for any other non-empty input on which every
tier fails (relative pattern, the ten formats, the flexible parser) it
returns the stripped original string (not necessarily the original
string unchanged). -/
theorem C7_sentinel_and_fallthrough :
    (∀ (flex : String → Option (ℤ × ℤ × ℤ)) (now : ℤ) (inp : Option String),
      standardize_date_format flex now inp = "N/A" →
      inp = none ∨ inp = some "" ∨ inp = some "N/A" ∨
        (∃ s, inp = some s ∧ pyStrip s = "N/A") ∨
        (∃ s n u, inp = some s ∧
          findRel (pyLower (pyStrip s)).toList = some (n, u) ∧
          ¬ relComputeOk now n u)) ∧
    (∀ (flex : String → Option (ℤ × ℤ × ℤ)) (now : ℤ) (s : String),
      s ≠ "" → s ≠ "N/A" →
      (strContainsSub (pyLower (pyStrip s)) "ago" = false ∨
        findRel (pyLower (pyStrip s)).toList = none) →
      tryFormats (pyStrip s) = none → flex (pyStrip s) = none →
      standardize_date_format flex now (some s) = pyStrip s) := by
  constructor
  · intro flex now inp h
    match inp with
    | none => exact Or.inl rfl
    | some s0 =>
      by_cases hg : s0 = "N/A" ∨ s0 = ""
      · rcases hg with hg | hg
        · exact Or.inr (Or.inr (Or.inl (by rw [hg])))
        · exact Or.inr (Or.inl (by rw [hg]))
      · simp only [standardize_date_format, if_neg hg] at h
        rcases hrel : (if strContainsSub (pyLower (pyStrip s0)) "ago" then
            findRel (pyLower (pyStrip s0)).toList else none) with _ | ⟨n, u⟩
        · rw [hrel] at h
          rcases htf : tryFormats (pyStrip s0) with _ | out
          · rw [htf] at h
            rcases hfx : flex (pyStrip s0) with _ | ymd
            · rw [hfx] at h
              exact Or.inr (Or.inr (Or.inr (Or.inl ⟨s0, rfl, h⟩)))
            · rw [hfx] at h
              exact absurd h (formatYMD_ne_NA _ _ _)
          · rw [htf] at h
            obtain ⟨y, m, d, rfl⟩ := tryFormats_shape htf
            exact absurd h (formatYMD_ne_NA _ _ _)
        · rw [hrel] at h
          dsimp only at h
          have hfr : findRel (pyLower (pyStrip s0)).toList = some (n, u) := by
            by_cases hc : strContainsSub (pyLower (pyStrip s0)) "ago" = true
            · rw [if_pos hc] at hrel
              exact hrel
            · rw [if_neg hc] at hrel
              exact Option.noConfusion hrel
          by_cases hok : relComputeOk now n u
          · rw [if_pos hok] at h
            exact absurd h (formatYMD_ne_NA _ _ _)
          · exact Or.inr (Or.inr (Or.inr (Or.inr ⟨s0, n, u, rfl, hfr, hok⟩)))
  · intro flex now s hs1 hs2 hrel htf hfx
    have hguard : ¬ (s = "N/A" ∨ s = "") := by
      intro hg
      rcases hg with hg | hg
      · exact hs2 hg
      · exact hs1 hg
    have hscrut : (if strContainsSub (pyLower (pyStrip s)) "ago" then
        findRel (pyLower (pyStrip s)).toList else none) = none := by
      rcases hrel with hrel | hrel
      · rw [hrel]
        rfl
      · split_ifs
        · exact hrel
        · rfl
    simp only [standardize_date_format, if_neg hguard, hscrut, htf, hfx]

/-- Claim C7 counterexample: the non-empty, non-sentinel input
`" N/A "` yields the sentinel, and the unparseable input `" abc "`
comes back stripped — not unchanged. -/
theorem C7_counterexample :
    ((" N/A " : String) ≠ "" ∧ (" N/A " : String) ≠ "N/A" ∧
      standardize_date_format flexNone 0 (some " N/A ") = "N/A") ∧
    ((" abc " : String) ≠ "" ∧
      standardize_date_format flexNone 0 (some " abc ") = "abc" ∧
      ("abc" : String) ≠ " abc ") := by
  refine ⟨⟨by decide, by decide, ?_⟩, by decide, ?_, by decide⟩
  · decide
  · decide

/-- Claim C7 witness: the amended statement applied at concrete
inputs. -/
theorem C7_witness :
    ((some "" : Option String) = none ∨ (some "" : Option String) = some "" ∨
      (some "" : Option String) = some "N/A" ∨
      (∃ s, (some "" : Option String) = some s ∧ pyStrip s = "N/A") ∨
      (∃ s n u, (some "" : Option String) = some s ∧
        findRel (pyLower (pyStrip s)).toList = some (n, u) ∧
        ¬ relComputeOk 0 n u)) ∧
    standardize_date_format flexNone 0 (some " abc ") = pyStrip " abc " :=
  ⟨C7_sentinel_and_fallthrough.1 flexNone 0 (some "") (by decide),
   C7_sentinel_and_fallthrough.2 flexNone 0 " abc " (by decide) (by decide)
     (Or.inl (by decide)) (by decide) rfl⟩

/-! ## Clock dependence of normalisation -/

theorem standardize_clock_free (s : String) (h : relTriggered s = false)
    (flex : String → Option (ℤ × ℤ × ℤ)) (n₁ n₂ : ℤ) :
    standardize_date_format flex n₁ (some s) = standardize_date_format flex n₂ (some s) := by
  by_cases hg : s = "N/A" ∨ s = ""
  · simp only [standardize_date_format, if_pos hg]
  · have hscrut : (if strContainsSub (pyLower (pyStrip s)) "ago" then
        findRel (pyLower (pyStrip s)).toList else none) = none := by
      simp only [relTriggered] at h
      rcases Bool.and_eq_false_iff.mp h with hc | hs
      · rw [hc]
        rfl
      · split_ifs
        · exact Option.not_isSome_iff_eq_none.mp (by rw [hs]; exact Bool.false_ne_true)
        · rfl
    simp only [standardize_date_format, if_neg hg, hscrut]

/-- Claim C9 (amended): schema normalisation with date normalisation is
a deterministic function of the raw record, the platform, the flexible
parser and the clock reading; whenever the resolved date cell does not
trigger the relative-date branch the clock is irrelevant, so repeated
normalisation of such a record is identical even across time. -/
theorem C9_normalize_clock_independent
    (flex : String → Option (ℤ × ℤ × ℤ)) (n₁ n₂ : ℤ) (p : Platform) (row : RawRow)
    (h : ∀ v, fallbackField row (dateChain p) = some v → relTriggered v = false) :
    normalizeRow flex n₁ p row = normalizeRow flex n₂ p row := by
  have hdf : dateField flex n₁ row (dateChain p) = dateField flex n₂ row (dateChain p) := by
    unfold dateField
    rcases hfb : fallbackField row (dateChain p) with _ | v
    · rfl
    · exact standardize_clock_free v (h v hfb) flex n₁ n₂
  cases p <;>
    (simp only [dateChain] at hdf; simp only [normalizeRow]; rw [hdf])

/-- Claim C9 counterexample: the identical raw record (date cell
`"3 days ago"`) normalised at two different instants yields different
canonical articles: the composition is not a function of the record
alone. -/
theorem C9_counterexample :
    normalizeRow flexNone nowJan10 Platform.googleNews rowRelDate
      ≠ normalizeRow flexNone nowJan20 Platform.googleNews rowRelDate := by
  decide

/-- Claim C9 witness: a record with an absolute date cell normalises
identically at two different instants. -/
theorem C9_witness :
    normalizeRow flexNone nowJan10 Platform.googleNews rowAbsDate
      = normalizeRow flexNone nowJan20 Platform.googleNews rowAbsDate :=
  C9_normalize_clock_independent flexNone nowJan10 nowJan20 Platform.googleNews rowAbsDate
    (by
      intro v hv
      have hfb : fallbackField rowAbsDate (dateChain Platform.googleNews)
          = some "2025-05-07" := by decide
      rw [hfb] at hv
      have hveq := Option.some.inj hv
      rw [← hveq]
      decide)
